import Mathlib

/-!
Verification of the constraint-block generation engine of this repository
(`src/oemof/solph/blocks.py` and `src/oemof/solph/custom.py`) against the
natural-language specification.  The builders are shallowly embedded:
pyomo expressions become a small linear-expression AST over an explicit
variable type, pyomo constraint families become lists of keyed constraints,
and Python functions that can raise become `Except String`-valued functions.
Rational numbers stand for the Python floats.
-/

namespace Solph

/-- Comparison operator of an emitted (in)equality constraint. -/
inductive Rel where
  | eq
  | le
  | ge
  deriving DecidableEq, Repr

/-- Linear expression over a variable type `V`, mirroring the pyomo
expressions the builders construct: constants, decision variables, sums,
differences, and multiplication by a numeric coefficient. -/
inductive LinExpr (V : Type) where
  | const : ℚ → LinExpr V
  | var : V → LinExpr V
  | add : LinExpr V → LinExpr V → LinExpr V
  | sub : LinExpr V → LinExpr V → LinExpr V
  | smul : ℚ → LinExpr V → LinExpr V
  deriving DecidableEq

/-- Value of a linear expression under an assignment of the variables. -/
def LinExpr.eval {V : Type} (a : V → ℚ) : LinExpr V → ℚ
  | LinExpr.const c => c
  | LinExpr.var v => a v
  | LinExpr.add x y => x.eval a + y.eval a
  | LinExpr.sub x y => x.eval a - y.eval a
  | LinExpr.smul c x => c * x.eval a

/-- An emitted constraint: left-hand side, comparison, right-hand side. -/
structure Constr (V : Type) where
  lhs : LinExpr V
  rel : Rel
  rhs : LinExpr V
  deriving DecidableEq

/-- An assignment satisfies a constraint when the evaluated sides stand in
the stated relation. -/
def Constr.sat {V : Type} : Constr V → (V → ℚ) → Prop
  | ⟨l, Rel.eq, r⟩, a => l.eval a = r.eval a
  | ⟨l, Rel.le, r⟩, a => l.eval a ≤ r.eval a
  | ⟨l, Rel.ge, r⟩, a => r.eval a ≤ l.eval a

instance {V : Type} : ∀ (c : Constr V) (a : V → ℚ), Decidable (c.sat a)
  | ⟨l, Rel.eq, r⟩, a => inferInstanceAs (Decidable (l.eval a = r.eval a))
  | ⟨l, Rel.le, r⟩, a => inferInstanceAs (Decidable (l.eval a ≤ r.eval a))
  | ⟨l, Rel.ge, r⟩, a => inferInstanceAs (Decidable (r.eval a ≤ l.eval a))

/-!
## custom.py: ElectricalBus, ElectricalLine, ElectricalLineBlock
-/

/-- An electrical bus (custom.py, class ElectricalBus).  `label` models the
object identity of the node. -/
structure ElectricalBus where
  label : Nat
  slack : Bool
  v_max : ℚ
  v_min : ℚ
  deriving DecidableEq

/-- The keyword arguments `ElectricalBus.__init__` reads via `kwargs.get`;
`none` models an argument that was not passed. -/
structure EBusKwargs where
  slack : Option Bool
  v_max : Option ℚ
  v_min : Option ℚ

/-- Constructor `ElectricalBus.__init__` (custom.py lines 33-37):
`self.slack = kwargs.get("slack", True)`, `self.v_max = kwargs.get("v_max",
1000)`, `self.v_min = kwargs.get("v_min", -1000)`. -/
def ElectricalBus.init (label : Nat) (kw : EBusKwargs) : ElectricalBus :=
  { label := label
    slack := kw.slack.getD true
    v_max := kw.v_max.getD 1000
    v_min := kw.v_min.getD (-1000) }

/-- An electrical line (custom.py, class ElectricalLine) together with its
single input bus `I[n] = n._input()` and single output bus
`O[n] = n._output()`; `reactance` is the per-timestep sequence. -/
structure ElectricalLine where
  label : Nat
  input : ElectricalBus
  output : ElectricalBus
  reactance : Nat → ℚ

/-- A node of the electrical subnetwork: a bus or a line, identified by the
label of the underlying object. -/
inductive ENode where
  | bus : Nat → ENode
  | line : Nat → ENode
  deriving DecidableEq

/-- Decision variables touched by `ElectricalLineBlock._create`: the global
flow variables `m.flow[src, dst, t]` and the voltage-angle variables
`self.voltage_angle[bus, t]`. -/
inductive EVar where
  | flow : ENode → ENode → Nat → EVar
  | voltage_angle : Nat → Nat → EVar
  deriving DecidableEq

/-- One iteration of the loop body of `_voltage_angle_relation`
(custom.py lines 123-138), producing the `electrical_flow` constraint and
the `_equate_electrical_flows` constraint for line `n` at timestep `t`.

In the source, the branch `if O[n].slack is True:` assigns `lhs` and
`rhs = 0`, but the `try` block that follows reassigns both names
unconditionally (there is no `else`), so the emitted `electrical_flow`
constraint is the reactance relation in every case.  The `except` path
fires when evaluating `1 / n.reactance[t]` raises, i.e. when the reactance
is zero, and reraises as `ValueError("Error in constraint creation", ...)`. -/
def lineLoopBody (n : ElectricalLine) (t : Nat) :
    Except String (Constr EVar × Constr EVar) :=
  if n.reactance t = 0 then
    Except.error "Error in constraint creation"
  else
    Except.ok
      (⟨LinExpr.var (EVar.flow (ENode.line n.label) (ENode.bus n.output.label) t),
        Rel.eq,
        LinExpr.smul (1 / n.reactance t)
          (LinExpr.sub (LinExpr.var (EVar.voltage_angle n.input.label t))
            (LinExpr.var (EVar.voltage_angle n.output.label t)))⟩,
       ⟨LinExpr.var (EVar.flow (ENode.line n.label) (ENode.bus n.output.label) t),
        Rel.eq,
        LinExpr.var (EVar.flow (ENode.bus n.input.label) (ENode.line n.label) t)⟩)

/-- The slack-bus check at the start of `ElectricalLineBlock._create`
(custom.py lines 114-119).  When no discovered electrical bus has `slack`
set, the source evaluates
`logging.info("No slack bus set, ...").format(bus.label)`:
`logging.info` returns `None`, so the `.format` call raises
`AttributeError` before `bus.slack = True` is ever reached.  On the empty
list, `self.ELECTRICAL_BUSES.first()` itself raises. -/
def slackCheck (buses : List ElectricalBus) :
    Except String (List ElectricalBus) :=
  if (buses.map (fun b => b.slack)).contains true then
    Except.ok buses
  else
    match buses with
    | [] => Except.error "first called on an empty Set"
    | _ :: _ =>
        Except.error "AttributeError: NoneType object has no attribute format"

/-- Concrete non-slack input bus for the C1 scenario. -/
def c1busIn : ElectricalBus :=
  { label := 0, slack := false, v_max := 1000, v_min := -1000 }

/-- Concrete slack output bus for the C1 scenario. -/
def c1busOut : ElectricalBus :=
  { label := 1, slack := true, v_max := 1000, v_min := -1000 }

/-- Concrete line whose output bus is the slack bus, with reactance 1. -/
def c1line : ElectricalLine :=
  { label := 2, input := c1busIn, output := c1busOut, reactance := fun _ => 1 }

/-- An assignment exhibiting a nonzero flow over `c1line` that satisfies the
constraint the code actually emits for it. -/
def c1assign : EVar → ℚ :=
  fun v =>
    match v with
    | EVar.flow _ _ _ => 5
    | EVar.voltage_angle b _ => if b = 0 then 5 else 0

/-- C1: the claim says that when the output bus of a line is the slack bus,
the emitted constraint pins the flow of the line to zero.  The code does
not: the `try` block overwrites the slack branch, so for the concrete line
`c1line` (output bus slack, reactance 1) the emitted `electrical_flow`
constraint is the reactance relation, it is satisfiable with flow value 5,
and its right-hand side is not the constant 0.  The second
(`_equate_electrical_flows`) constraint does equate the two directional
flow variables. -/
theorem electrical_line_slack_output_not_pinned :
    c1line.output.slack = true ∧
    lineLoopBody c1line 0 =
      Except.ok
        (⟨LinExpr.var (EVar.flow (ENode.line 2) (ENode.bus 1) 0),
          Rel.eq,
          LinExpr.smul 1
            (LinExpr.sub (LinExpr.var (EVar.voltage_angle 0 0))
              (LinExpr.var (EVar.voltage_angle 1 0)))⟩,
         ⟨LinExpr.var (EVar.flow (ENode.line 2) (ENode.bus 1) 0),
          Rel.eq,
          LinExpr.var (EVar.flow (ENode.bus 0) (ENode.line 2) 0)⟩) ∧
    Constr.sat
      ⟨LinExpr.var (EVar.flow (ENode.line 2) (ENode.bus 1) 0),
       Rel.eq,
       LinExpr.smul 1
         (LinExpr.sub (LinExpr.var (EVar.voltage_angle 0 0))
           (LinExpr.var (EVar.voltage_angle 1 0)))⟩ c1assign ∧
    c1assign (EVar.flow (ENode.line 2) (ENode.bus 1) 0) = 5 ∧
    (LinExpr.smul 1
        (LinExpr.sub (LinExpr.var (EVar.voltage_angle 0 0))
          (LinExpr.var (EVar.voltage_angle 1 0))) : LinExpr EVar) ≠
      LinExpr.const 0 := by
  refine ⟨rfl, ?_, ?_, rfl, by decide⟩
  · simp only [lineLoopBody, c1line, c1busIn, c1busOut]
    norm_num
  · simp [Constr.sat, LinExpr.eval, c1assign]

/-- Concrete pair of electrical buses, none of them marked slack. -/
def c5buses : List ElectricalBus :=
  [{ label := 0, slack := false, v_max := 1000, v_min := -1000 },
   { label := 1, slack := false, v_max := 1000, v_min := -1000 }]

/-- C5: the claim says that when no electrical bus is marked slack the build
designates the first bus as slack, logs the choice and completes normally.
On the concrete two-bus group `c5buses` with no slack bus, the code instead
raises: `logging.info(...)` returns `None` and the chained `.format` call
raises `AttributeError`, so the build fails on this path. -/
theorem slack_autoselect_crashes :
    ((c5buses.map (fun b => b.slack)).contains true = false) ∧
    slackCheck c5buses =
      Except.error "AttributeError: NoneType object has no attribute format" := by
  exact ⟨rfl, rfl⟩

/-- C10: an ElectricalBus constructed without an explicit `slack` keyword
argument has `slack = True` (and, when those keywords are also absent,
`v_max = 1000` and `v_min = -1000`); hence in a topology built entirely
with default keyword arguments every electrical bus is marked slack. -/
theorem electrical_bus_default_slack (label : Nat) (kw : EBusKwargs)
    (hs : kw.slack = none) :
    (ElectricalBus.init label kw).slack = true ∧
    (kw.v_max = none → (ElectricalBus.init label kw).v_max = 1000) ∧
    (kw.v_min = none → (ElectricalBus.init label kw).v_min = -1000) ∧
    ∀ ls : List Nat,
      ((ls.map (fun l => ElectricalBus.init l ⟨none, none, none⟩)).filter
          (fun b => b.slack)).length = ls.length := by
  refine ⟨?_, ?_, ?_, ?_⟩
  · simp [ElectricalBus.init, hs]
  · intro h
    simp [ElectricalBus.init, h]
  · intro h
    simp [ElectricalBus.init, h]
  · intro ls
    induction ls with
    | nil => rfl
    | cons x xs ih =>
        simp only [List.map_cons, List.filter_cons]
        simp [ElectricalBus.init] at ih ⊢
        exact ih

/-- Witness for C10 at the concrete input: label 0, no keyword arguments. -/
theorem electrical_bus_default_slack_witness :
    (⟨none, none, none⟩ : EBusKwargs).slack = none ∧
    (ElectricalBus.init 0 ⟨none, none, none⟩).slack = true ∧
    (ElectricalBus.init 0 ⟨none, none, none⟩).v_max = 1000 ∧
    (ElectricalBus.init 0 ⟨none, none, none⟩).v_min = -1000 := by
  have h := electrical_bus_default_slack 0 ⟨none, none, none⟩ rfl
  exact ⟨rfl, h.1, h.2.1 rfl, h.2.2.1 rfl⟩

/-!
## blocks.py: Storage block (fixed sizing)
-/

/-- Modelled from the spec: the `previous_timesteps` mapping of the shared
time index lives in the OperationalModel, which is not under src/.  The
spec says: a `previous(t)` mapping where `previous(first) = last`
(periodic boundary, required for storages to close a cycle) and
`previous(t) = t-1` otherwise.  Timesteps are `0, ..., T-1`. -/
def previous_timesteps (T t : Nat) : Nat :=
  if t = 0 then T - 1 else t - 1

/-- Attributes of a storage node without investment (blocks.py, class
Storage), with `label` modelling the object identity of the node. -/
structure StorageAttrs where
  label : Nat
  nominal_capacity : ℚ
  capacity_min : Nat → ℚ
  capacity_max : Nat → ℚ
  capacity_loss : Nat → ℚ
  inflow_conversion_factor : Nat → ℚ
  outflow_conversion_factor : Nat → ℚ
  initial_capacity : Option ℚ
  fixed_costs : Option ℚ

/-- Decision variables touched by `Storage._create`: the global flow
variables `m.flow[src, dst, t]` and the capacity variables
`self.capacity[n, t]` (nodes named by label). -/
inductive SVar where
  | flow : Nat → Nat → Nat → SVar
  | capacity : Nat → Nat → SVar
  deriving DecidableEq

/-- Bounds of the capacity variable of storage `n` at timestep `t`
(`_storage_capacity_bound_rule`, blocks.py lines 67-73). -/
def storage_capacity_bound_rule (n : StorageAttrs) (t : Nat) : ℚ × ℚ :=
  (n.nominal_capacity * n.capacity_min t, n.nominal_capacity * n.capacity_max t)

/-- The storage balance constraint of storage `n` at timestep `t`
(`_storage_balance_rule`, blocks.py lines 85-97), built exactly as the
source accumulates `expr`:
`expr += block.capacity[n, t]`,
`expr += - block.capacity[n, previous] * (1 - capacity_loss[t])`,
`expr += (- flow[input, n, t] * inflow_conversion_factor[t]) * dt`,
`expr += (flow[n, output, t] / outflow_conversion_factor[t]) * dt`,
and `return expr == 0`.  `inputOf` and `outputOf` are the topology maps
`m.INPUTS` and `m.OUTPUTS`. -/
def storage_balance_rule (T : Nat) (dt : ℚ) (inputOf outputOf : Nat → Nat)
    (n : StorageAttrs) (t : Nat) : Constr SVar :=
  ⟨LinExpr.add
      (LinExpr.add
        (LinExpr.add (LinExpr.const 0) (LinExpr.var (SVar.capacity n.label t)))
        (LinExpr.smul (-(1 - n.capacity_loss t))
          (LinExpr.var (SVar.capacity n.label (previous_timesteps T t)))))
      (LinExpr.smul (-(n.inflow_conversion_factor t) * dt)
        (LinExpr.var (SVar.flow (inputOf n.label) n.label t)))
    |>.add
      (LinExpr.smul (1 / n.outflow_conversion_factor t * dt)
        (LinExpr.var (SVar.flow n.label (outputOf n.label) t))),
   Rel.eq, LinExpr.const 0⟩

/-- The `balance` constraint family of `Storage._create`, indexed by
`(storage, timestep)` (blocks.py lines 98-99). -/
def storage_balance (T : Nat) (dt : ℚ) (inputOf outputOf : Nat → Nat)
    (group : List StorageAttrs) : List ((Nat × Nat) × Constr SVar) :=
  group.flatMap (fun n =>
    (List.range T).map (fun t =>
      ((n.label, t), storage_balance_rule T dt inputOf outputOf n t)))

/-- The `.fix()` calls of `Storage._create` (blocks.py lines 78-82): for
every storage with an `initial_capacity`, the capacity variable at the
last timestep `m.timesteps[-1]` is fixed to
`initial_capacity * nominal_capacity`.  Each list entry is a variable
together with the value it is fixed to. -/
def storage_fixed (T : Nat) (group : List StorageAttrs) : List (SVar × ℚ) :=
  group.filterMap (fun n =>
    n.initial_capacity.map (fun c =>
      (SVar.capacity n.label (T - 1), c * n.nominal_capacity)))

/-- C6: for every fixed-size storage and timestep the emitted balance
constraint is exactly
`capacity[t] - capacity[previous(t)]*(1 - capacity_loss[t])
 - inflow[t]*inflow_eff[t]*dt + outflow[t]/outflow_eff[t]*dt == 0`
with `previous(first) = last`, and when `initial_capacity` is set the
capacity variable at the last timestep is fixed (not merely bounded) to
`initial_capacity * nominal_capacity`. -/
theorem storage_balance_correct (T : Nat) (dt : ℚ)
    (inputOf outputOf : Nat → Nat) (group : List StorageAttrs)
    (n : StorageAttrs) (hn : n ∈ group) (t : Nat) (ht : t < T)
    (a : SVar → ℚ) :
    ((n.label, t), storage_balance_rule T dt inputOf outputOf n t) ∈
      storage_balance T dt inputOf outputOf group ∧
    ((storage_balance_rule T dt inputOf outputOf n t).sat a ↔
      a (SVar.capacity n.label t)
        - a (SVar.capacity n.label (previous_timesteps T t)) *
            (1 - n.capacity_loss t)
        - a (SVar.flow (inputOf n.label) n.label t) *
            n.inflow_conversion_factor t * dt
        + a (SVar.flow n.label (outputOf n.label) t) /
            n.outflow_conversion_factor t * dt = 0) ∧
    (∀ c0 : ℚ, n.initial_capacity = some c0 →
      (SVar.capacity n.label (T - 1), c0 * n.nominal_capacity) ∈
        storage_fixed T group) := by
  refine ⟨?_, ?_, ?_⟩
  · simp only [storage_balance, List.mem_flatMap, List.mem_map, List.mem_range]
    exact ⟨n, hn, t, ht, rfl⟩
  · simp only [storage_balance_rule, Constr.sat, LinExpr.eval]
    constructor
    · intro h
      linear_combination h
    · intro h
      linear_combination h
  · intro c0 hc
    simp only [storage_fixed, List.mem_filterMap]
    exact ⟨n, hn, by simp [hc]⟩

/-- Concrete storage for the C6 witness: scenario of spec section 8 with
`nominal_capacity = 100`, no loss, unit efficiencies,
`initial_capacity = 0.5`. -/
def stEx : StorageAttrs :=
  { label := 3
    nominal_capacity := 100
    capacity_min := fun _ => 0
    capacity_max := fun _ => 1
    capacity_loss := fun _ => 0
    inflow_conversion_factor := fun _ => 1
    outflow_conversion_factor := fun _ => 1
    initial_capacity := some (1 / 2)
    fixed_costs := none }

/-- Input node map for the C6 witness. -/
def stInOf : Nat → Nat := fun _ => 10

/-- Output node map for the C6 witness. -/
def stOutOf : Nat → Nat := fun _ => 11

/-- Witness for C6 at the concrete input: storage `stEx`, two timesteps,
`dt = 1`, timestep 0. -/
theorem storage_balance_correct_witness :
    stEx ∈ [stEx] ∧ 0 < 2 ∧
    ((stEx.label, 0), storage_balance_rule 2 1 stInOf stOutOf stEx 0) ∈
      storage_balance 2 1 stInOf stOutOf [stEx] ∧
    (SVar.capacity 3 1, (1 / 2 : ℚ) * 100) ∈ storage_fixed 2 [stEx] := by
  have h := storage_balance_correct 2 1 stInOf stOutOf [stEx] stEx
    (List.mem_singleton.mpr rfl) 0 (by norm_num) (fun _ => 0)
  exact ⟨List.mem_singleton.mpr rfl, by norm_num, h.1, h.2.2 (1 / 2) rfl⟩

/-!
## blocks.py: InvestmentStorage block
-/

/-- An investment spec (options.Investment), as read by the blocks. -/
structure Investment where
  maximum : ℚ
  ep_costs : Option ℚ
  fixed_costs : Option ℚ

/-- Attributes of a storage node with an investment spec (blocks.py, class
InvestmentStorage). -/
structure InvestStorageAttrs where
  label : Nat
  capacity_min : Nat → ℚ
  capacity_max : Nat → ℚ
  capacity_loss : Nat → ℚ
  inflow_conversion_factor : Nat → ℚ
  outflow_conversion_factor : Nat → ℚ
  initial_capacity : Option ℚ
  fixed_costs : Option ℚ
  investment : Investment

/-- Decision variables of `InvestmentStorage._create`: the capacity
variables `self.capacity[n, t]` and the sizing variables
`self.invest[n]`. -/
inductive ISVar where
  | capacity : Nat → Nat → ISVar
  | invest : Nat → ISVar
  deriving DecidableEq

/-- The set `MIN_INVESTSTORAGES` (blocks.py lines 199-201): storages whose
`capacity_min` sums to a positive value over the timesteps,
`sum([n.capacity_min[t] for t in m.TIMESTEPS]) > 0`. -/
def MIN_INVESTSTORAGES (T : Nat) (group : List InvestStorageAttrs) :
    List InvestStorageAttrs :=
  group.filter (fun n =>
    decide (0 < ((List.range T).map (fun t => n.capacity_min t)).sum))

/-- The `max_capacity_invest` constraint family
(`_max_capacity_invest_rule`, blocks.py lines 257-264):
`capacity[n, t] <= capacity_max[t] * invest[n]` over all investment
storages and timesteps. -/
def max_capacity_invest (T : Nat) (group : List InvestStorageAttrs) :
    List ((Nat × Nat) × Constr ISVar) :=
  group.flatMap (fun n =>
    (List.range T).map (fun t =>
      ((n.label, t),
       ⟨LinExpr.var (ISVar.capacity n.label t), Rel.le,
        LinExpr.smul (n.capacity_max t)
          (LinExpr.var (ISVar.invest n.label))⟩)))

/-- The `min_investstorage` constraint family (`_min_investstorage_rule`,
blocks.py lines 266-274): `capacity[n, t] <= capacity_min[t] * invest[n]`
over `MIN_INVESTSTORAGES` and all timesteps.  Note the source emits `<=`
here as well, the same direction as the maximum constraint. -/
def min_investstorage (T : Nat) (group : List InvestStorageAttrs) :
    List ((Nat × Nat) × Constr ISVar) :=
  (MIN_INVESTSTORAGES T group).flatMap (fun n =>
    (List.range T).map (fun t =>
      ((n.label, t),
       ⟨LinExpr.var (ISVar.capacity n.label t), Rel.le,
        LinExpr.smul (n.capacity_min t)
          (LinExpr.var (ISVar.invest n.label))⟩)))

/-- Every member of `MIN_INVESTSTORAGES` has a nonzero `capacity_min` at
some timestep: its per-timestep values sum to a positive number. -/
theorem min_investstorages_nonzero (T : Nat) (group : List InvestStorageAttrs)
    (n : InvestStorageAttrs) (hn : n ∈ MIN_INVESTSTORAGES T group) :
    n ∈ group ∧ ∃ s, s < T ∧ n.capacity_min s ≠ 0 := by
  simp only [MIN_INVESTSTORAGES, List.mem_filter, decide_eq_true_eq] at hn
  obtain ⟨hg, hsum⟩ := hn
  refine ⟨hg, ?_⟩
  by_contra h
  push_neg at h
  have hz : ((List.range T).map (fun t => n.capacity_min t)).sum = 0 := by
    apply List.sum_eq_zero
    intro x hx
    simp only [List.mem_map, List.mem_range] at hx
    obtain ⟨s, hs, rfl⟩ := hx
    exact h s hs
  rw [hz] at hsum
  exact lt_irrefl 0 hsum

/-- C7: for every investment storage and timestep, both the
capacity-maximum and the capacity-minimum conditions are emitted as
one-sided upper-bound constraints of the form
`capacity[n, t] <= fraction[t] * invest[n]` (the minimum case uses
`capacity_min[t]` with `<=`, not `>=`), the minimum family being indexed
by `MIN_INVESTSTORAGES`, whose members have a nonzero `capacity_min` for
at least one timestep. -/
theorem invest_storage_capacity_bounds (T : Nat)
    (group : List InvestStorageAttrs) (n : InvestStorageAttrs)
    (hn : n ∈ group) (t : Nat) (ht : t < T) :
    ((n.label, t),
      (⟨LinExpr.var (ISVar.capacity n.label t), Rel.le,
        LinExpr.smul (n.capacity_max t)
          (LinExpr.var (ISVar.invest n.label))⟩ : Constr ISVar)) ∈
      max_capacity_invest T group ∧
    (n ∈ MIN_INVESTSTORAGES T group →
      ((n.label, t),
        (⟨LinExpr.var (ISVar.capacity n.label t), Rel.le,
          LinExpr.smul (n.capacity_min t)
            (LinExpr.var (ISVar.invest n.label))⟩ : Constr ISVar)) ∈
        min_investstorage T group) ∧
    (∀ k : Nat × Nat, ∀ c : Constr ISVar, (k, c) ∈ min_investstorage T group →
      c.rel = Rel.le ∧
      ∃ n2, n2 ∈ group ∧ k.1 = n2.label ∧
        ∃ s, s < T ∧ n2.capacity_min s ≠ 0) := by
  refine ⟨?_, ?_, ?_⟩
  · simp only [max_capacity_invest, List.mem_flatMap, List.mem_map,
      List.mem_range]
    exact ⟨n, hn, t, ht, rfl⟩
  · intro hmin
    simp only [min_investstorage, List.mem_flatMap, List.mem_map,
      List.mem_range]
    exact ⟨n, hmin, t, ht, rfl⟩
  · intro k c hkc
    simp only [min_investstorage, List.mem_flatMap, List.mem_map,
      List.mem_range] at hkc
    obtain ⟨n2, hn2, t2, ht2, heq⟩ := hkc
    obtain ⟨hg2, hs2⟩ := min_investstorages_nonzero T group n2 hn2
    injection heq with h1 h2
    subst h1
    subst h2
    exact ⟨rfl, n2, hg2, rfl, hs2⟩

/-- Concrete investment storage for the C7 witness, with
`capacity_min = 1/2` everywhere (so it belongs to `MIN_INVESTSTORAGES`). -/
def isEx : InvestStorageAttrs :=
  { label := 7
    capacity_min := fun _ => 1 / 2
    capacity_max := fun _ => 1
    capacity_loss := fun _ => 0
    inflow_conversion_factor := fun _ => 1
    outflow_conversion_factor := fun _ => 1
    initial_capacity := none
    fixed_costs := none
    investment := { maximum := 10, ep_costs := some 2, fixed_costs := none } }

/-- Witness for C7 at the concrete input: storage `isEx`, one timestep. -/
theorem invest_storage_capacity_bounds_witness :
    isEx ∈ [isEx] ∧ 0 < 1 ∧ isEx ∈ MIN_INVESTSTORAGES 1 [isEx] ∧
    ((isEx.label, 0),
      (⟨LinExpr.var (ISVar.capacity isEx.label 0), Rel.le,
        LinExpr.smul (isEx.capacity_max 0)
          (LinExpr.var (ISVar.invest isEx.label))⟩ : Constr ISVar)) ∈
      max_capacity_invest 1 [isEx] ∧
    ((isEx.label, 0),
      (⟨LinExpr.var (ISVar.capacity isEx.label 0), Rel.le,
        LinExpr.smul (isEx.capacity_min 0)
          (LinExpr.var (ISVar.invest isEx.label))⟩ : Constr ISVar)) ∈
      min_investstorage 1 [isEx] := by
  have hmin : isEx ∈ MIN_INVESTSTORAGES 1 [isEx] := by
    simp only [MIN_INVESTSTORAGES, List.mem_filter, decide_eq_true_eq]
    refine ⟨List.mem_singleton.mpr rfl, ?_⟩
    norm_num [List.range_succ, isEx]
  have h := invest_storage_capacity_bounds 1 [isEx] isEx
    (List.mem_singleton.mpr rfl) 0 (by norm_num)
  exact ⟨List.mem_singleton.mpr rfl, by norm_num, hmin, h.1, h.2.1 hmin⟩

/-!
## blocks.py: order of variable creation and the missing ep_costs error

`InvestmentStorage._create` (blocks.py lines 204-212) declares the
`capacity` variable and then the `invest` variable; no `ep_costs` check
happens there.  `InvestmentFlow._create` (blocks.py lines 478-484)
declares the `invest` variable.  The check
`if n.investment.ep_costs is not None: ... else: raise ValueError(...)`
only runs inside `_objective_expression` (blocks.py lines 285-289 and
554-564), which reads the already created `invest` variables and is
therefore evaluated after `_create`.  The build of one block is modelled
as the ordered list of its variable-creation events followed by the
events of its objective-expression pass.
-/

/-- An observable event of a block build: the creation of a (pyomo)
decision variable, or an exception being raised. -/
inductive BuildEvent where
  | varCreated : String → BuildEvent
  | errorRaised : String → BuildEvent
  deriving DecidableEq

/-- Events of `InvestmentStorage._objective_expression` (blocks.py lines
285-289): the loop raises `ValueError` at the first storage whose
investment spec has no `ep_costs`, and emits nothing otherwise. -/
def investStorageObjEvents : List InvestStorageAttrs → List BuildEvent
  | [] => []
  | n :: rest =>
      match n.investment.ep_costs with
      | some _ => investStorageObjEvents rest
      | none => [BuildEvent.errorRaised "Missing value for investment costs!"]

/-- Ordered build events of the InvestmentStorage block: `_create`
declares `capacity` (line 204) then `invest` (line 211), then the
objective pass runs. -/
def investStorageBuildEvents (group : List InvestStorageAttrs) :
    List BuildEvent :=
  BuildEvent.varCreated "InvestmentStorage.capacity" ::
    BuildEvent.varCreated "InvestmentStorage.invest" ::
      investStorageObjEvents group

/-- Attributes of an investment flow needed for the objective pass
(blocks.py, class InvestmentFlow). -/
structure InvestFlowAttrs where
  src : Nat
  dst : Nat
  fixed_costs : Option ℚ
  investment : Investment

/-- Events of `InvestmentFlow._objective_expression` (blocks.py lines
554-564): per flow, the fixed-costs term is accumulated without raising,
then the missing `ep_costs` raises `ValueError`. -/
def investFlowObjEvents : List InvestFlowAttrs → List BuildEvent
  | [] => []
  | f :: rest =>
      match f.investment.ep_costs with
      | some _ => investFlowObjEvents rest
      | none => [BuildEvent.errorRaised "Missing value for investment costs!"]

/-- Ordered build events of the InvestmentFlow block: `_create` declares
`invest` (blocks.py line 483), then the objective pass runs. -/
def investFlowBuildEvents (group : List InvestFlowAttrs) : List BuildEvent :=
  BuildEvent.varCreated "InvestmentFlow.invest" :: investFlowObjEvents group

/-- The storage objective pass ends in the error event as soon as some
group member misses `ep_costs`. -/
theorem investStorageObjEvents_error (sg : List InvestStorageAttrs)
    (h : ∃ n, n ∈ sg ∧ n.investment.ep_costs = none) :
    investStorageObjEvents sg =
      [BuildEvent.errorRaised "Missing value for investment costs!"] := by
  induction sg with
  | nil =>
      obtain ⟨n, hn, _⟩ := h
      simp at hn
  | cons x rest ih =>
      obtain ⟨n, hn, hep⟩ := h
      cases hx : x.investment.ep_costs with
      | none => simp [investStorageObjEvents, hx]
      | some v =>
          simp only [investStorageObjEvents, hx]
          apply ih
          rcases List.mem_cons.mp hn with h1 | h2
          · rw [h1] at hep
            rw [hx] at hep
            exact absurd hep (by simp)
          · exact ⟨n, h2, hep⟩

/-- The flow objective pass ends in the error event as soon as some group
member misses `ep_costs`. -/
theorem investFlowObjEvents_error (fg : List InvestFlowAttrs)
    (h : ∃ f, f ∈ fg ∧ f.investment.ep_costs = none) :
    investFlowObjEvents fg =
      [BuildEvent.errorRaised "Missing value for investment costs!"] := by
  induction fg with
  | nil =>
      obtain ⟨f, hf, _⟩ := h
      simp at hf
  | cons x rest ih =>
      obtain ⟨f, hf, hep⟩ := h
      cases hx : x.investment.ep_costs with
      | none => simp [investFlowObjEvents, hx]
      | some v =>
          simp only [investFlowObjEvents, hx]
          apply ih
          rcases List.mem_cons.mp hf with h1 | h2
          · rw [h1] at hep
            rw [hx] at hep
            exact absurd hep (by simp)
          · exact ⟨f, h2, hep⟩

/-- C3 (amended): a missing `ep_costs` on an invested storage or flow
raises `ValueError("Missing value for investment costs!")` during the
objective-expression pass, which runs after `_create`, so the error event
comes after the creation events of the decision variables of the
component (capacity and invest for storages, invest for flows) — not
before any variable is created. -/
theorem missing_ep_costs_raises_after_vars :
    (∀ sg : List InvestStorageAttrs,
      (∃ n, n ∈ sg ∧ n.investment.ep_costs = none) →
      investStorageBuildEvents sg =
        [BuildEvent.varCreated "InvestmentStorage.capacity",
         BuildEvent.varCreated "InvestmentStorage.invest",
         BuildEvent.errorRaised "Missing value for investment costs!"]) ∧
    (∀ fg : List InvestFlowAttrs,
      (∃ f, f ∈ fg ∧ f.investment.ep_costs = none) →
      investFlowBuildEvents fg =
        [BuildEvent.varCreated "InvestmentFlow.invest",
         BuildEvent.errorRaised "Missing value for investment costs!"]) := by
  constructor
  · intro sg h
    simp only [investStorageBuildEvents, investStorageObjEvents_error sg h]
  · intro fg h
    simp only [investFlowBuildEvents, investFlowObjEvents_error fg h]

/-- Concrete investment storage whose investment spec has no `ep_costs`. -/
def sNoEp : InvestStorageAttrs :=
  { label := 4
    capacity_min := fun _ => 0
    capacity_max := fun _ => 1
    capacity_loss := fun _ => 0
    inflow_conversion_factor := fun _ => 1
    outflow_conversion_factor := fun _ => 1
    initial_capacity := none
    fixed_costs := none
    investment := { maximum := 10, ep_costs := none, fixed_costs := none } }

/-- Concrete investment flow whose investment spec has no `ep_costs`. -/
def fNoEp : InvestFlowAttrs :=
  { src := 0
    dst := 1
    fixed_costs := none
    investment := { maximum := 10, ep_costs := none, fixed_costs := none } }

/-- C3 counterexample: at the concrete inputs `sNoEp` and `fNoEp` the
first build event is the creation of a decision variable, and the
missing-ep_costs error event occurs later in the same trace, so the error
is not raised before any decision variable of the component is created. -/
theorem missing_ep_costs_vars_exist_at_error :
    (investStorageBuildEvents [sNoEp]).head? =
      some (BuildEvent.varCreated "InvestmentStorage.capacity") ∧
    BuildEvent.errorRaised "Missing value for investment costs!" ∈
      investStorageBuildEvents [sNoEp] ∧
    (investFlowBuildEvents [fNoEp]).head? =
      some (BuildEvent.varCreated "InvestmentFlow.invest") ∧
    BuildEvent.errorRaised "Missing value for investment costs!" ∈
      investFlowBuildEvents [fNoEp] := by
  refine ⟨rfl, ?_, rfl, ?_⟩
  · simp [investStorageBuildEvents, investStorageObjEvents, sNoEp]
  · simp [investFlowBuildEvents, investFlowObjEvents, fNoEp]

/-- Witness for the amended C3 at the concrete inputs `sNoEp`, `fNoEp`. -/
theorem missing_ep_costs_raises_after_vars_witness :
    (∃ n, n ∈ [sNoEp] ∧ n.investment.ep_costs = none) ∧
    investStorageBuildEvents [sNoEp] =
      [BuildEvent.varCreated "InvestmentStorage.capacity",
       BuildEvent.varCreated "InvestmentStorage.invest",
       BuildEvent.errorRaised "Missing value for investment costs!"] ∧
    investFlowBuildEvents [fNoEp] =
      [BuildEvent.varCreated "InvestmentFlow.invest",
       BuildEvent.errorRaised "Missing value for investment costs!"] := by
  have h := missing_ep_costs_raises_after_vars
  exact ⟨⟨sNoEp, List.mem_singleton.mpr rfl, rfl⟩,
    h.1 [sNoEp] ⟨sNoEp, List.mem_singleton.mpr rfl, rfl⟩,
    h.2 [fNoEp] ⟨fNoEp, List.mem_singleton.mpr rfl, rfl⟩⟩

/-!
## blocks.py: gradient part of the Flow block

This embeds the gradient region of `Flow._create` (blocks.py lines
330-348 and 376-407).  The source rule `_negative_gradient_flow_rule`
reads `m.flow[i, o, t]` although its own loop binds `inp`, `out`, `ts`:
`i`, `o` and `t` are the leftover values of the loop variables of the
upper-bound loop at lines 340-348 (`for i, o, f in group: ... for t in
m.TIMESTEPS: ...`), so by the time the build action runs, `i, o` name the
last group element and `t` the last timestep (if no element had a
gradient, the names are unbound and Python raises `NameError`).  The rule
also bounds by `m.positive_flow_gradient`, not the negative variable.
-/

/-- Flow attributes read by the gradient part of the Flow block.  In the
source, `positive_gradient` is a per-timestep sequence whose entry 0 is
`None` when the attribute is unset (the membership tests are
`g[2].positive_gradient[0] is not None`); an unset attribute is modelled
as `none`. -/
structure GradFlowAttrs where
  nominal_value : ℚ
  positive_gradient : Option (Nat → ℚ)
  negative_gradient : Option (Nat → ℚ)
  summed_max : Option ℚ
  summed_min : Option ℚ

/-- Decision variables of the Flow block: the global flow variables and
the two gradient auxiliary variables. -/
inductive FVar where
  | flow : Nat → Nat → Nat → FVar
  | positive_flow_gradient : Nat → Nat → Nat → FVar
  | negative_flow_gradient : Nat → Nat → Nat → FVar
  deriving DecidableEq

/-- The set `NEGATIVE_GRADIENT_FLOWS` (blocks.py lines 330-332). -/
def NEGATIVE_GRADIENT_FLOWS (group : List (Nat × Nat × GradFlowAttrs)) :
    List (Nat × Nat) :=
  group.filterMap (fun g =>
    if g.2.2.negative_gradient.isSome then some (g.1, g.2.1) else none)

/-- The set `POSITIVE_GRADIENT_FLOWS` (blocks.py lines 334-336). -/
def POSITIVE_GRADIENT_FLOWS (group : List (Nat × Nat × GradFlowAttrs)) :
    List (Nat × Nat) :=
  group.filterMap (fun g =>
    if g.2.2.positive_gradient.isSome then some (g.1, g.2.1) else none)

/-- Upper bounds set on the gradient auxiliary variables by the loop at
blocks.py lines 340-348: for every group member with a gradient
attribute, `gradient[t] * nominal_value` per timestep. -/
def flow_gradient_ub (T : Nat) (group : List (Nat × Nat × GradFlowAttrs)) :
    List (FVar × ℚ) :=
  group.flatMap (fun g =>
    (match g.2.2.positive_gradient with
     | some pg => (List.range T).map (fun t =>
         (FVar.positive_flow_gradient g.1 g.2.1 t, pg t * g.2.2.nominal_value))
     | none => []) ++
    (match g.2.2.negative_gradient with
     | some ng => (List.range T).map (fun t =>
         (FVar.negative_flow_gradient g.1 g.2.1 t, ng t * g.2.2.nominal_value))
     | none => []))

/-- Final value of the Python loop variables `i, o` after the bounds loop
of blocks.py lines 340-348: the source and target of the last group
element, or unbound for an empty group. -/
def staleEdge (group : List (Nat × Nat × GradFlowAttrs)) : Option (Nat × Nat) :=
  group.getLast?.map (fun g => (g.1, g.2.1))

/-- Final value of the Python loop variable `t` after the bounds loop:
the last timestep, provided some group element entered one of the inner
timestep loops (i.e. has a gradient attribute); unbound otherwise. -/
def staleT (T : Nat) (group : List (Nat × Nat × GradFlowAttrs)) : Option Nat :=
  if 0 < T ∧ group.any (fun g =>
      g.2.2.positive_gradient.isSome || g.2.2.negative_gradient.isSome) then
    some (T - 1)
  else none

/-- The `positive_gradient_constr` family
(`_positive_gradient_flow_rule`, blocks.py lines 376-390): for each
member of `POSITIVE_GRADIENT_FLOWS` and each timestep after the first,
`flow[inp, out, ts] - flow[inp, out, ts-1] <= positive_flow_gradient[inp,
out, ts]`; the first timestep is skipped. -/
def positive_gradient_constr (T : Nat)
    (group : List (Nat × Nat × GradFlowAttrs)) :
    List ((Nat × Nat × Nat) × Constr FVar) :=
  (POSITIVE_GRADIENT_FLOWS group).flatMap (fun p =>
    (List.range T).filterMap (fun ts =>
      if 0 < ts then
        some ((p.1, p.2, ts),
          ⟨LinExpr.sub (LinExpr.var (FVar.flow p.1 p.2 ts))
            (LinExpr.var (FVar.flow p.1 p.2 (ts - 1))),
           Rel.le, LinExpr.var (FVar.positive_flow_gradient p.1 p.2 ts)⟩)
      else none))

/-- The `negative_gradient_constr` family
(`_negative_gradient_flow_rule`, blocks.py lines 392-407), embedded with
the dataflow the source actually has: the left-hand side is
`m.flow[i, o, t] - m.flow[inp, out, ts-1]` with `i`, `o`, `t` the stale
loop variables, and the right-hand side is `m.positive_flow_gradient[inp,
out, ts]`.  When the loop body would execute with the stale names unbound
the build raises `NameError`; when the body never executes (no negative
gradient flows, or fewer than two timesteps) the family is empty. -/
def negative_gradient_constr (T : Nat)
    (group : List (Nat × Nat × GradFlowAttrs)) :
    Except String (List ((Nat × Nat × Nat) × Constr FVar)) :=
  if (NEGATIVE_GRADIENT_FLOWS group).isEmpty || decide (T < 2) then
    Except.ok []
  else
    match staleEdge group, staleT T group with
    | some (i, o), some t =>
        Except.ok ((NEGATIVE_GRADIENT_FLOWS group).flatMap (fun p =>
          (List.range T).filterMap (fun ts =>
            if 0 < ts then
              some ((p.1, p.2, ts),
                ⟨LinExpr.sub (LinExpr.var (FVar.flow i o t))
                  (LinExpr.var (FVar.flow p.1 p.2 (ts - 1))),
                 Rel.le, LinExpr.var (FVar.positive_flow_gradient p.1 p.2 ts)⟩)
            else none)))
    | _, _ => Except.error "NameError: name referenced before assignment"

/-- Concrete flow with only a negative gradient (fraction 1/10,
nominal value 100). -/
def gNeg : GradFlowAttrs :=
  { nominal_value := 100
    positive_gradient := none
    negative_gradient := some (fun _ => 1 / 10)
    summed_max := none
    summed_min := none }

/-- Concrete flow with only a positive gradient. -/
def gPos : GradFlowAttrs :=
  { nominal_value := 50
    positive_gradient := some (fun _ => 1 / 5)
    negative_gradient := none
    summed_max := none
    summed_min := none }

/-- One-edge group for C4: edge (0, 1) with a negative gradient. -/
def c4group : List (Nat × Nat × GradFlowAttrs) := [(0, 1, gNeg)]

/-- Two-edge group for C4: the last element (2, 3) is not a
negative-gradient flow, exposing the stale loop variables. -/
def c4group2 : List (Nat × Nat × GradFlowAttrs) := [(0, 1, gNeg), (2, 3, gPos)]

/-- C4: the claim says the ramp-down constraint for edge (0, 1) at
timestep 1 bounds `flow[0,1,0] - flow[0,1,1]` by the negative-gradient
variable.  The code instead emits `flow[i,o,t] - flow[0,1,0] <=
positive_flow_gradient[0,1,1]` where `i, o, t` are stale loop variables:
on the one-edge group they happen to alias the same edge at the last
timestep, and on the two-edge group the left-hand side even reads the
flow of the unrelated edge (2, 3).  In both cases the bound is the
positive-gradient variable, not the negative one.  The upper bound of the
negative-gradient auxiliary variable itself is set correctly to
`negative_gradient[t] * nominal_value`. -/
theorem negative_gradient_rule_is_wrong :
    negative_gradient_constr 2 c4group =
      Except.ok [((0, 1, 1),
        ⟨LinExpr.sub (LinExpr.var (FVar.flow 0 1 1))
          (LinExpr.var (FVar.flow 0 1 0)),
         Rel.le, LinExpr.var (FVar.positive_flow_gradient 0 1 1)⟩)] ∧
    (⟨LinExpr.sub (LinExpr.var (FVar.flow 0 1 1))
        (LinExpr.var (FVar.flow 0 1 0)),
      Rel.le, LinExpr.var (FVar.positive_flow_gradient 0 1 1)⟩ : Constr FVar) ≠
      ⟨LinExpr.sub (LinExpr.var (FVar.flow 0 1 0))
        (LinExpr.var (FVar.flow 0 1 1)),
       Rel.le, LinExpr.var (FVar.negative_flow_gradient 0 1 1)⟩ ∧
    negative_gradient_constr 2 c4group2 =
      Except.ok [((0, 1, 1),
        ⟨LinExpr.sub (LinExpr.var (FVar.flow 2 3 1))
          (LinExpr.var (FVar.flow 0 1 0)),
         Rel.le, LinExpr.var (FVar.positive_flow_gradient 0 1 1)⟩)] ∧
    (FVar.negative_flow_gradient 0 1 1, (1 / 10 : ℚ) * 100) ∈
      flow_gradient_ub 2 c4group := by
  refine ⟨rfl, by decide, rfl, ?_⟩
  simp [flow_gradient_ub, c4group, gNeg, List.range_succ]

/-!
## blocks.py: Discrete block
-/

/-- A discrete (unit-commitment) spec attached to a flow. -/
structure DiscreteSpec where
  start_costs : Option ℚ

/-- Flow attributes read by `Discrete._create`.  `min` and `max` are the
per-timestep fraction sequences (`m.flows[i, o].min[t]`); a fraction
declared as a scalar appears as the constant sequence, so entry 0 is the
declared value. -/
structure DiscFlowAttrs where
  min : Nat → ℚ
  max : Nat → ℚ
  nominal_value : ℚ
  discrete : DiscreteSpec
  positive_gradient : Option (Nat → ℚ)
  negative_gradient : Option (Nat → ℚ)

/-- Decision variables of the Discrete block: the global flow variables
and the binary status variables. -/
inductive DVar where
  | flow : Nat → Nat → Nat → DVar
  | status : Nat → Nat → Nat → DVar
  deriving DecidableEq

/-- The `_minimum_flow_rule` (blocks.py lines 692-698):
`status[i,o,t] * min[t] * nominal_value >= flow[i,o,t]`. -/
def discreteMinRule (flows : Nat → Nat → DiscFlowAttrs) (i o t : Nat) :
    Constr DVar :=
  ⟨LinExpr.smul ((flows i o).min t * (flows i o).nominal_value)
      (LinExpr.var (DVar.status i o t)),
   Rel.ge, LinExpr.var (DVar.flow i o t)⟩

/-- The `_maximum_flow_rule` (blocks.py lines 702-708):
`status[i,o,t] * max[t] * nominal_value <= flow[i,o,t]`. -/
def discreteMaxRule (flows : Nat → Nat → DiscFlowAttrs) (i o t : Nat) :
    Constr DVar :=
  ⟨LinExpr.smul ((flows i o).max t * (flows i o).nominal_value)
      (LinExpr.var (DVar.status i o t)),
   Rel.le, LinExpr.var (DVar.flow i o t)⟩

/-- Result of `Discrete._create` (blocks.py lines 665-713): the sets
`FLOWS`, `MIN_FLOWS` (edges with `min[0] != 0`), `STARTCOSTFLOWS` (edges
whose discrete spec has start costs), the binary status variables, and
the two coupling constraint families over `MIN_FLOWS x TIMESTEPS`.
The method ends after these; the start-cost and gradient features are
only TODO comments (lines 712-713), no constraint, objective term or
error refers to them. -/
structure DiscreteBlock where
  FLOWS : List (Nat × Nat)
  MIN_FLOWS : List (Nat × Nat)
  STARTCOSTFLOWS : List (Nat × Nat)
  status_vars : List DVar
  minimum_flow : List ((Nat × Nat × Nat) × Constr DVar)
  maximum_flow : List ((Nat × Nat × Nat) × Constr DVar)

/-- `Discrete._create`, with `flows` the model-wide edge-attribute lookup
`m.flows` and `pairs` the grouped `(source, target)` edges. -/
def discreteCreate (T : Nat) (flows : Nat → Nat → DiscFlowAttrs)
    (pairs : List (Nat × Nat)) : DiscreteBlock :=
  let minFlows := pairs.filter (fun p => decide ((flows p.1 p.2).min 0 ≠ 0))
  { FLOWS := pairs
    MIN_FLOWS := minFlows
    STARTCOSTFLOWS := pairs.filter (fun p =>
      (flows p.1 p.2).discrete.start_costs.isSome)
    status_vars := pairs.flatMap (fun p =>
      (List.range T).map (fun t => DVar.status p.1 p.2 t))
    minimum_flow := minFlows.flatMap (fun p =>
      (List.range T).map (fun t =>
        ((p.1, p.2, t), discreteMinRule flows p.1 p.2 t)))
    maximum_flow := minFlows.flatMap (fun p =>
      (List.range T).map (fun t =>
        ((p.1, p.2, t), discreteMaxRule flows p.1 p.2 t))) }

/-- C8: for every discrete edge with a nonzero declared minimum fraction
and every timestep, exactly the two coupling constraints
`status * min[t] * nominal >= flow` and `status * max[t] * nominal <=
flow` are emitted, both families are indexed by the same
has-nonzero-minimum set, and an edge with zero minimum gets neither. -/
theorem discrete_coupling_constraints (T : Nat)
    (flows : Nat → Nat → DiscFlowAttrs) (pairs : List (Nat × Nat))
    (i o : Nat) (hp : (i, o) ∈ pairs) (t : Nat) (ht : t < T) :
    ((discreteCreate T flows pairs).minimum_flow.map Prod.fst =
      (discreteCreate T flows pairs).maximum_flow.map Prod.fst) ∧
    ((i, o) ∈ (discreteCreate T flows pairs).MIN_FLOWS ↔
      (flows i o).min 0 ≠ 0) ∧
    ((flows i o).min 0 ≠ 0 →
      ((i, o, t), discreteMinRule flows i o t) ∈
        (discreteCreate T flows pairs).minimum_flow ∧
      ((i, o, t), discreteMaxRule flows i o t) ∈
        (discreteCreate T flows pairs).maximum_flow ∧
      discreteMinRule flows i o t =
        ⟨LinExpr.smul ((flows i o).min t * (flows i o).nominal_value)
          (LinExpr.var (DVar.status i o t)),
         Rel.ge, LinExpr.var (DVar.flow i o t)⟩ ∧
      discreteMaxRule flows i o t =
        ⟨LinExpr.smul ((flows i o).max t * (flows i o).nominal_value)
          (LinExpr.var (DVar.status i o t)),
         Rel.le, LinExpr.var (DVar.flow i o t)⟩) ∧
    ((flows i o).min 0 = 0 →
      (∀ c : Constr DVar,
        ((i, o, t), c) ∉ (discreteCreate T flows pairs).minimum_flow) ∧
      (∀ c : Constr DVar,
        ((i, o, t), c) ∉ (discreteCreate T flows pairs).maximum_flow)) ∧
    (∀ c : Constr DVar,
      ((i, o, t), c) ∈ (discreteCreate T flows pairs).minimum_flow →
        c = discreteMinRule flows i o t) ∧
    (∀ c : Constr DVar,
      ((i, o, t), c) ∈ (discreteCreate T flows pairs).maximum_flow →
        c = discreteMaxRule flows i o t) := by
  refine ⟨?_, ?_, ?_, ?_, ?_, ?_⟩
  · simp only [discreteCreate, List.map_flatMap, List.map_map,
      Function.comp_def]
  · simp only [discreteCreate, List.mem_filter, decide_eq_true_eq]
    exact ⟨fun h => h.2, fun h => ⟨hp, h⟩⟩
  · intro h0
    refine ⟨?_, ?_, rfl, rfl⟩ <;>
      · simp only [discreteCreate, List.mem_flatMap, List.mem_map,
          List.mem_range, List.mem_filter, decide_eq_true_eq]
        exact ⟨(i, o), ⟨hp, h0⟩, t, ht, rfl⟩
  · intro h0
    constructor <;>
      · intro c hc
        simp only [discreteCreate, List.mem_flatMap, List.mem_map,
          List.mem_range, List.mem_filter, decide_eq_true_eq] at hc
        obtain ⟨p, ⟨hpp, hpmin⟩, t2, ht2, heq⟩ := hc
        injection heq with h1 h2
        injection h1 with hi1 hrest
        injection hrest with ho1 ht1
        exact hpmin (by rw [hi1, ho1]; exact h0)
  · intro c hc
    simp only [discreteCreate, List.mem_flatMap, List.mem_map,
      List.mem_range, List.mem_filter, decide_eq_true_eq] at hc
    obtain ⟨p, ⟨hpp, hpmin⟩, t2, ht2, heq⟩ := hc
    injection heq with h1 h2
    injection h1 with hi1 hrest
    injection hrest with ho1 ht1
    rw [← h2, hi1, ho1, ht1]
  · intro c hc
    simp only [discreteCreate, List.mem_flatMap, List.mem_map,
      List.mem_range, List.mem_filter, decide_eq_true_eq] at hc
    obtain ⟨p, ⟨hpp, hpmin⟩, t2, ht2, heq⟩ := hc
    injection heq with h1 h2
    injection h1 with hi1 hrest
    injection hrest with ho1 ht1
    rw [← h2, hi1, ho1, ht1]

/-- Concrete discrete flow attributes with a nonzero minimum, for the C8
witness. -/
def dEx : DiscFlowAttrs :=
  { min := fun _ => 1 / 2
    max := fun _ => 1
    nominal_value := 10
    discrete := { start_costs := none }
    positive_gradient := none
    negative_gradient := none }

/-- Model-wide lookup mapping every edge to `dEx`. -/
def dExFlows : Nat → Nat → DiscFlowAttrs := fun _ _ => dEx

/-- Witness for C8 at the concrete input: edge (0, 1), one timestep. -/
theorem discrete_coupling_constraints_witness :
    ((0, 1) ∈ [((0 : Nat), (1 : Nat))]) ∧ 0 < 1 ∧
    (dExFlows 0 1).min 0 ≠ 0 ∧
    ((discreteCreate 1 dExFlows [(0, 1)]).minimum_flow.map Prod.fst =
      (discreteCreate 1 dExFlows [(0, 1)]).maximum_flow.map Prod.fst) ∧
    ((0, 1, 0), discreteMinRule dExFlows 0 1 0) ∈
      (discreteCreate 1 dExFlows [(0, 1)]).minimum_flow ∧
    ((0, 1, 0), discreteMaxRule dExFlows 0 1 0) ∈
      (discreteCreate 1 dExFlows [(0, 1)]).maximum_flow := by
  have hmin : (dExFlows 0 1).min 0 ≠ 0 := by norm_num [dExFlows, dEx]
  have h := discrete_coupling_constraints 1 dExFlows [(0, 1)] 0 1
    (List.mem_singleton.mpr rfl) 0 (by norm_num)
  exact ⟨List.mem_singleton.mpr rfl, by norm_num, hmin, h.1,
    (h.2.2.1 hmin).1, (h.2.2.1 hmin).2.1⟩

/-- Erasure of the unimplemented features of a discrete flow: no start
costs, no gradient attributes. -/
def eraseUnsupported (f : DiscFlowAttrs) : DiscFlowAttrs :=
  { f with
    discrete := { start_costs := none }
    positive_gradient := none
    negative_gradient := none }

/-- C2 (amended): building the Discrete block for edges with start costs
or gradient attributes completes normally and silently ignores them:
every emitted variable and constraint of the block is identical to the
build with those features erased; start costs only populate the
`STARTCOSTFLOWS` set, which no constraint or objective term consumes. -/
theorem discrete_unsupported_silently_ignored (T : Nat)
    (flows : Nat → Nat → DiscFlowAttrs) (pairs : List (Nat × Nat)) :
    (discreteCreate T (fun i o => eraseUnsupported (flows i o)) pairs).FLOWS =
      (discreteCreate T flows pairs).FLOWS ∧
    (discreteCreate T (fun i o => eraseUnsupported (flows i o)) pairs).MIN_FLOWS =
      (discreteCreate T flows pairs).MIN_FLOWS ∧
    (discreteCreate T (fun i o => eraseUnsupported (flows i o)) pairs).status_vars =
      (discreteCreate T flows pairs).status_vars ∧
    (discreteCreate T (fun i o => eraseUnsupported (flows i o)) pairs).minimum_flow =
      (discreteCreate T flows pairs).minimum_flow ∧
    (discreteCreate T (fun i o => eraseUnsupported (flows i o)) pairs).maximum_flow =
      (discreteCreate T flows pairs).maximum_flow :=
  ⟨rfl, rfl, rfl, rfl, rfl⟩

/-- Concrete discrete flow that declares start costs and both gradients. -/
def dUnsup : DiscFlowAttrs :=
  { min := fun _ => 1 / 2
    max := fun _ => 1
    nominal_value := 10
    discrete := { start_costs := some 5 }
    positive_gradient := some (fun _ => 1 / 10)
    negative_gradient := some (fun _ => 1 / 10) }

/-- Model-wide lookup mapping every edge to `dUnsup`. -/
def dUnsupFlows : Nat → Nat → DiscFlowAttrs := fun _ _ => dUnsup

/-- C2 counterexample: for the concrete edge (0, 1) whose discrete spec
declares start costs and whose gradients are set, the Discrete block
build completes and produces a nonempty model whose variables and
constraints coincide with those of the same edge with the features
erased — the features have no effect, no error is raised. -/
theorem discrete_unsupported_no_error :
    dUnsup.discrete.start_costs = some 5 ∧
    dUnsup.positive_gradient.isSome = true ∧
    (discreteCreate 1 dUnsupFlows [(0, 1)]).STARTCOSTFLOWS = [(0, 1)] ∧
    (discreteCreate 1 dUnsupFlows [(0, 1)]).minimum_flow =
      (discreteCreate 1 (fun i o => eraseUnsupported (dUnsupFlows i o))
        [(0, 1)]).minimum_flow ∧
    (discreteCreate 1 dUnsupFlows [(0, 1)]).maximum_flow =
      (discreteCreate 1 (fun i o => eraseUnsupported (dUnsupFlows i o))
        [(0, 1)]).maximum_flow ∧
    (discreteCreate 1 dUnsupFlows [(0, 1)]).status_vars =
      (discreteCreate 1 (fun i o => eraseUnsupported (dUnsupFlows i o))
        [(0, 1)]).status_vars ∧
    (discreteCreate 1 dUnsupFlows [(0, 1)]).minimum_flow ≠ [] := by
  refine ⟨rfl, rfl, rfl, rfl, rfl, rfl, ?_⟩
  simp [discreteCreate, dUnsupFlows, dUnsup, List.range_succ]

/-!
## blocks.py: Bus block
-/

/-- A bus node with the labels of its input and output neighbour nodes. -/
structure BusNode where
  label : Nat
  inputs : List Nat
  outputs : List Nat

/-- Decision variables of the Bus block: the global flow variables. -/
inductive BVar where
  | flow : Nat → Nat → Nat → BVar
  deriving DecidableEq

/-- The Python builtin `sum` over a list of pyomo terms: over the empty
list it returns the plain number 0 (an int), otherwise a symbolic pyomo
expression built by folding `+` starting from 0. -/
def pySum (terms : List (LinExpr BVar)) : Sum ℚ (LinExpr BVar) :=
  match terms with
  | [] => Sum.inl 0
  | ts => Sum.inr (ts.foldl LinExpr.add (LinExpr.const 0))

/-- The loop body of `_busbalance_rule` (blocks.py lines 595-605) for bus
`n` at timestep `t`: `lhs = sum(flow[i, n, t] * dt for i in inputs)`,
`rhs = sum(flow[n, o, t] * dt for o in outputs)`, `expr = (lhs == rhs)`.
When both sides are plain numbers, `lhs == rhs` evaluates to a Python
bool, and `if expr is not True` skips the constraint exactly when that
bool is `True`; otherwise `expr` is a pyomo relational expression and the
constraint is added.  (The number-versus-number unequal branch would add
a trivially false constraint; it is unreachable since flow terms are
symbolic.) -/
def busLoopBody (dt : ℚ) (n : BusNode) (t : Nat) :
    Option ((Nat × Nat) × Constr BVar) :=
  match pySum (n.inputs.map (fun i =>
          LinExpr.smul dt (LinExpr.var (BVar.flow i n.label t)))),
        pySum (n.outputs.map (fun o =>
          LinExpr.smul dt (LinExpr.var (BVar.flow n.label o t)))) with
  | Sum.inl q1, Sum.inl q2 =>
      if q1 = q2 then none
      else some ((n.label, t), ⟨LinExpr.const q1, Rel.eq, LinExpr.const q2⟩)
  | Sum.inl q1, Sum.inr e2 =>
      some ((n.label, t), ⟨LinExpr.const q1, Rel.eq, e2⟩)
  | Sum.inr e1, Sum.inl q2 =>
      some ((n.label, t), ⟨e1, Rel.eq, LinExpr.const q2⟩)
  | Sum.inr e1, Sum.inr e2 =>
      some ((n.label, t), ⟨e1, Rel.eq, e2⟩)

/-- The `balance` constraint family of `Bus._create` (blocks.py lines
593-606): the build action loops over timesteps, then over the grouped
buses, adding the loop-body constraint whenever it is not skipped. -/
def busBalance (T : Nat) (dt : ℚ) (group : List BusNode) :
    List ((Nat × Nat) × Constr BVar) :=
  (List.range T).flatMap (fun t =>
    group.filterMap (fun n => busLoopBody dt n t))

/-- Evaluation of a fold of sums, as built by `pySum`. -/
theorem eval_foldl_add {V : Type} (a : V → ℚ) (e0 : LinExpr V)
    (L : List (LinExpr V)) :
    LinExpr.eval a (L.foldl LinExpr.add e0) =
      LinExpr.eval a e0 + (L.map (fun e => LinExpr.eval a e)).sum := by
  induction L generalizing e0 with
  | nil => simp
  | cons x xs ih =>
      simp only [List.foldl_cons, List.map_cons, List.sum_cons]
      rw [ih]
      simp only [LinExpr.eval]
      ring

/-- Evaluation of the list of `flow * dt` terms the bus rule sums. -/
theorem eval_sum_terms (a : BVar → ℚ) (dt : ℚ) (f : Nat → BVar)
    (L : List Nat) :
    ((L.map (fun x => LinExpr.smul dt (LinExpr.var (f x)))).map
        (fun e => LinExpr.eval a e)).sum =
      (L.map (fun x => a (f x) * dt)).sum := by
  induction L with
  | nil => rfl
  | cons x xs ih =>
      simp only [List.map_cons, List.sum_cons, LinExpr.eval]
      rw [ih]
      simp [mul_comm]

/-- C9: for every bus and timestep a balance constraint
`sum(inflow * dt) == sum(outflow * dt)` is emitted, except that a
degenerate bus whose balance reduces to the tautology `0 == 0` (no
inputs and no outputs, so both sides are the plain number 0) has no
constraint emitted at all for that timestep. -/
theorem bus_balance_emission (T : Nat) (dt : ℚ) (group : List BusNode)
    (n : BusNode) (hn : n ∈ group) (t : Nat) (ht : t < T) :
    (n.inputs = [] ∧ n.outputs = [] → busLoopBody dt n t = none) ∧
    (¬(n.inputs = [] ∧ n.outputs = []) →
      ∃ c : Constr BVar, busLoopBody dt n t = some ((n.label, t), c) ∧
        ((n.label, t), c) ∈ busBalance T dt group ∧
        ∀ a : BVar → ℚ, c.sat a ↔
          (n.inputs.map (fun i => a (BVar.flow i n.label t) * dt)).sum =
          (n.outputs.map (fun o => a (BVar.flow n.label o t) * dt)).sum) := by
  have hmem : ∀ x, busLoopBody dt n t = some x → x ∈ busBalance T dt group := by
    intro x hx
    simp only [busBalance, List.mem_flatMap, List.mem_filterMap,
      List.mem_range]
    exact ⟨t, ht, n, hn, hx⟩
  constructor
  · rintro ⟨hi, ho⟩
    simp [busLoopBody, pySum, hi, ho]
  · intro hne
    rcases hi : n.inputs with _ | ⟨i0, irest⟩ <;>
      rcases ho : n.outputs with _ | ⟨o0, orest⟩
    · exact absurd ⟨hi, ho⟩ hne
    · refine ⟨⟨LinExpr.const 0, Rel.eq,
        (List.map (fun o => LinExpr.smul dt (LinExpr.var (BVar.flow n.label o t)))
          (o0 :: orest)).foldl LinExpr.add (LinExpr.const 0)⟩, ?_, ?_, ?_⟩
      · simp [busLoopBody, pySum, hi, ho]
      · apply hmem
        simp [busLoopBody, pySum, hi, ho]
      · intro a
        simp only [Constr.sat, eval_foldl_add, eval_sum_terms, LinExpr.eval,
          hi, ho, List.map_nil, List.sum_nil, zero_add]
    · refine ⟨⟨(List.map (fun i => LinExpr.smul dt (LinExpr.var (BVar.flow i n.label t)))
          (i0 :: irest)).foldl LinExpr.add (LinExpr.const 0),
        Rel.eq, LinExpr.const 0⟩, ?_, ?_, ?_⟩
      · simp [busLoopBody, pySum, hi, ho]
      · apply hmem
        simp [busLoopBody, pySum, hi, ho]
      · intro a
        simp only [Constr.sat, eval_foldl_add, eval_sum_terms, LinExpr.eval,
          hi, ho, List.map_nil, List.sum_nil, zero_add]
    · refine ⟨⟨(List.map (fun i => LinExpr.smul dt (LinExpr.var (BVar.flow i n.label t)))
          (i0 :: irest)).foldl LinExpr.add (LinExpr.const 0),
        Rel.eq,
        (List.map (fun o => LinExpr.smul dt (LinExpr.var (BVar.flow n.label o t)))
          (o0 :: orest)).foldl LinExpr.add (LinExpr.const 0)⟩, ?_, ?_, ?_⟩
      · simp [busLoopBody, pySum, hi, ho]
      · apply hmem
        simp [busLoopBody, pySum, hi, ho]
      · intro a
        simp only [Constr.sat, eval_foldl_add, eval_sum_terms, LinExpr.eval,
          hi, ho, zero_add]

/-- Concrete bus with one input (node 1) and one output (node 2). -/
def busEx : BusNode := { label := 0, inputs := [1], outputs := [2] }

/-- Witness for C9 at the concrete input: bus `busEx`, one timestep,
`dt = 1`. -/
theorem bus_balance_emission_witness :
    busEx ∈ [busEx] ∧ 0 < 1 ∧ ¬(busEx.inputs = [] ∧ busEx.outputs = []) ∧
    (∃ c : Constr BVar, busLoopBody 1 busEx 0 = some ((busEx.label, 0), c) ∧
      ((busEx.label, 0), c) ∈ busBalance 1 1 [busEx] ∧
      ∀ a : BVar → ℚ, c.sat a ↔
        (busEx.inputs.map (fun i => a (BVar.flow i busEx.label 0) * 1)).sum =
        (busEx.outputs.map (fun o => a (BVar.flow busEx.label o 0) * 1)).sum) := by
  have hne : ¬(busEx.inputs = [] ∧ busEx.outputs = []) := by
    simp [busEx]
  have h := bus_balance_emission 1 1 [busEx] busEx
    (List.mem_singleton.mpr rfl) 0 (by norm_num)
  exact ⟨List.mem_singleton.mpr rfl, by norm_num, hne, h.2 hne⟩

end Solph
